import Mathlib

set_option maxRecDepth 2000000
set_option maxHeartbeats 16000000

/-!
Shallow embedding of the Game-of-Life GUI program (src/main.rs) and proofs
about its grid data model, neighbor counting, generation stepping,
double-buffer controller, timing gate, and pointer handling.

Machine integers are modelled as `Nat`/`Int` with explicit `% 2^w` at the
places where the source performs a wrapping cast or wrapping arithmetic.
`Instant`/`Duration` values are nanosecond counts (`Nat`); `Instant`
subtraction saturates at zero, matching a monotonic clock.  The `f32`
screen coordinates of pointer events are modelled as rationals: every
finite `f32` is a rational, division by the power-of-two cell size is
exact in `f32` for all values whose truncation matters, and the
`as u32` float-to-int cast saturates (negative and NaN inputs to 0,
oversized inputs to `u32::MAX`), which `u32_of_f32` mirrors.
-/

/-- Grid width constant (`const GRID_WIDTH: u32 = 100`). -/
def GRID_WIDTH : Nat := 100

/-- Grid height constant (`const GRID_HEIGHT: u32 = 100`). -/
def GRID_HEIGHT : Nat := 100

/-- Cell pixel size (`const GRID_CELL_SIZE: i32 = 8`). -/
def GRID_CELL_SIZE : Int := 8

/-- Modulus of `u32` arithmetic. -/
def U32_MOD : Nat := 4294967296

/-- Rust cast `z as u32` for `z : i32`: two's-complement reinterpretation,
i.e. the value modulo 2^32 (nonnegative remainder). -/
def u32_of_i32 (z : Int) : Nat := (z % (U32_MOD : Int)).toNat

/-- Rust cast `n as i32` for `n : usize`: truncate to the low 32 bits and
reinterpret them as a signed two's-complement value. -/
def i32_of_usize (n : Nat) : Int :=
  if n % U32_MOD < 2 ^ 31 then ((n % U32_MOD : Nat) : Int)
  else ((n % U32_MOD : Nat) : Int) - (U32_MOD : Int)

/-- Rust cast `q as u32` for a finite `f32` value `q`: saturating, truncates
toward zero; negative inputs give 0, inputs at or above 2^32 give
`u32::MAX`.  (For positive `q` truncation toward zero is the floor.) -/
def u32_of_f32 (q : ℚ) : Nat :=
  if q ≤ 0 then 0 else min (Int.floor q).toNat 4294967295

/-- Source `get_coordinates(i: i32) -> (i32, i32)`: `x = i % GRID_WIDTH`,
`y = i / GRID_WIDTH`.  Rust `%` and `/` on `i32` truncate toward zero,
which is `Int.tmod`/`Int.tdiv`.  Note the hard-coded `GRID_WIDTH`: the
conversion does not depend on the width of any particular board. -/
def get_coordinates (i : Int) : Int × Int :=
  (Int.tmod i (GRID_WIDTH : Int), Int.tdiv i (GRID_WIDTH : Int))

/-- Source `struct Board { cells: Vec<u8>, width: u32, height: u32 }`.
Cell values are `u8` (in {0,1} for every board the program builds). -/
structure Board where
  cells : List Nat
  width : Nat
  height : Nat
deriving DecidableEq

/-- Source `Board::new`: `vec![0; (width * height) as usize]`.  The
`u32` multiplication wraps modulo 2^32 in release builds (in debug builds
an overflowing product aborts); the `as usize` widening is exact. -/
def Board.new (width height : Nat) : Board :=
  { cells := List.replicate (width * height % U32_MOD) 0
    width := width
    height := height }

/-- Source `Board::randomize`: for every index of the existing cell vector,
store 1 when the index is divisible by 3, else 0. -/
def Board.randomize (b : Board) : Board :=
  { b with cells := (List.range b.cells.length).map (fun i => if i % 3 = 0 then 1 else 0) }

/-- Source `Board::get_cell`: bounds-checked read.  The source tests
`x as isize >= 0 && x < self.width && y as isize >= 0 && y < self.height`;
the two `isize` tests are vacuously true because `u32` zero-extends into
`isize`, leaving `x < width && y < height`.  The index `(y * width) + x`
is computed in `u32`, hence the `% U32_MOD`.  Under the length invariant
(`cells.length = width * height` with the product below 2^32) every
in-bounds index is inside the vector; the `getD` default 0 stands for the
vector read that Rust would abort on when the invariant is broken. -/
def Board.get_cell (b : Board) (x y : Nat) : Option Nat :=
  if x < b.width ∧ y < b.height then
    some (b.cells.getD ((y * b.width + x) % U32_MOD) 0)
  else none

/-- Write pattern used at the `Board::get_cell_mut` call site
(`if let Some(cell) = get_cell_mut(x, y) { *cell = v }`): the same bounds
check and `u32` index computation as `get_cell`; an out-of-bounds write is
a silent no-op because `get_cell_mut` returns `None`.  This is the spec's
`set(x, y, state)`. -/
def Board.set (b : Board) (x y v : Nat) : Board :=
  if x < b.width ∧ y < b.height then
    { b with cells := b.cells.set ((y * b.width + x) % U32_MOD) v }
  else b

/-- Source neighbor offset table inside `count_alive_neighbors`. -/
def neighbor_coordinates : List (Int × Int) :=
  [(-1, -1), (0, -1), (1, -1), (-1, 0), (1, 0), (-1, 1), (0, 1), (1, 1)]

/-- Source `Board::count_alive_neighbors(i: i32) -> u8`: converts the flat
index to coordinates via `get_coordinates` (which uses the global
`GRID_WIDTH`, not `self.width`), then for each of the 8 offsets reads
`get_cell((x + nx) as u32, (y + ny) as u32)` and accumulates the cell
value into a `u8` counter; each `u8` addition wraps modulo 256. -/
def Board.count_alive_neighbors (b : Board) (i : Int) : Nat :=
  (neighbor_coordinates.foldl
    (fun count o =>
      match b.get_cell (u32_of_i32 ((get_coordinates i).1 + o.1))
                       (u32_of_i32 ((get_coordinates i).2 + o.2)) with
      | some cell => (count + cell) % 256
      | none => count)
    0)

/-- Body of the per-cell computation in `Board::update`: the match on
`(cell, alive_neighbors)` with arms `(1,2) | (1,3) => 1`, `(0,3) => 1`,
`_ => 0`, where `cell = self.cells[i]` (in range for every `i` the update
loop produces) and the neighbor count is taken at `i as i32`. -/
def Board.next_cell (b : Board) (i : Nat) : Nat :=
  match b.cells.getD i 0, b.count_alive_neighbors (i32_of_usize i) with
  | 1, 2 => 1
  | 1, 3 => 1
  | 0, 3 => 1
  | _, _ => 0

/-- Source `Board::update(&mut self, future_board: &mut Board)`: for every
`i` in `0..self.cells.len()` writes `next_cell` into `future_board.cells[i]`.
`self` is only read, never written.  When the target vector is shorter than
the source's, the first out-of-range store aborts the process, modelled by
`none`; otherwise the first `self.cells.len()` target cells are overwritten
and any surplus target cells keep their previous values. -/
def Board.update (b : Board) (future : Board) : Option Board :=
  if future.cells.length < b.cells.length then none
  else some { future with
              cells := (List.range b.cells.length).map b.next_cell
                        ++ future.cells.drop b.cells.length }

/-- The `update_interval` built by `Duration::from_secs_f32(1.0 / 60.0)`,
in nanoseconds: the `f32` nearest 1/60 is 8947849 * 2^(-29) s, which the
conversion rounds to 16666668 ns.  Only its positivity matters below. -/
def UPDATE_INTERVAL : Nat := 16666668

/-- Source `struct GameState`.  `cycle` is a `u32` (its increment in the
tick wraps modulo 2^32); `last_update` is an `Instant` and
`update_interval` a `Duration`, both as nanosecond counts. -/
structure GameState where
  board_1 : Board
  board_2 : Board
  mouse_down : Bool
  cycle : Nat
  last_update : Nat
  update_interval : Nat
deriving DecidableEq

/-- Source `GameState::new`, parameterized by the `Instant::now()` it
captures.  The `game.randomize()` call is commented out in the source, so
both boards start all dead. -/
def GameState.new (now : Nat) : GameState :=
  { board_1 := Board.new GRID_WIDTH GRID_HEIGHT
    board_2 := Board.new GRID_WIDTH GRID_HEIGHT
    mouse_down := false
    cycle := 0
    last_update := now
    update_interval := UPDATE_INTERVAL }

/-- Source `GameState::handle_mouse(x: f32, y: f32)`: scales the screen
coordinates by `GRID_CELL_SIZE` with `f32` division and a saturating
`as u32` cast, then sets that cell to 1 in the parity-selected board
(`cycle % 2 == 0` selects `board_1`, otherwise `board_2`). -/
def GameState.handle_mouse (s : GameState) (x y : ℚ) : GameState :=
  match s.cycle % 2 with
  | 0 => { s with board_1 := s.board_1.set (u32_of_f32 (x / (GRID_CELL_SIZE : ℚ)))
                                           (u32_of_f32 (y / (GRID_CELL_SIZE : ℚ))) 1 }
  | _ => { s with board_2 := s.board_2.set (u32_of_f32 (x / (GRID_CELL_SIZE : ℚ)))
                                           (u32_of_f32 (y / (GRID_CELL_SIZE : ℚ))) 1 }

/-- Source `EventHandler::update` (the per-frame tick), parameterized by
the current instant `now`.  When the elapsed time since `last_update`
reaches `update_interval` it resets the timer to `now`, steps the
parity-selected current board into the other board and increments the
`u32` counter with `self.cycle += 1`, which wraps modulo 2^32 in release
builds (in debug an increment at `u32::MAX` aborts); otherwise it does
nothing.  `none` propagates the abort case of `Board::update`.  (The
trailing `println!` only reports timing.) -/
def GameState.tick (s : GameState) (now : Nat) : Option GameState :=
  if s.update_interval ≤ now - s.last_update then
    match s.cycle % 2 with
    | 0 => (s.board_1.update s.board_2).map fun b2 =>
        { s with last_update := now, board_2 := b2, cycle := (s.cycle + 1) % U32_MOD }
    | _ => (s.board_2.update s.board_1).map fun b1 =>
        { s with last_update := now, board_1 := b1, cycle := (s.cycle + 1) % U32_MOD }
  else some s

/-- Grid coordinates of the cells rendered by `EventHandler::draw`: the
loop iterates over `self.board_1.cells` (always `board_1`, with no parity
selection) and draws one `GRID_CELL_SIZE`-sized square at the scaled
`get_coordinates(i)` for every cell holding 1. -/
def GameState.drawnCells (s : GameState) : List (Int × Int) :=
  ((List.range s.board_1.cells.length).filter
      (fun i => s.board_1.cells.getD i 0 == 1)).map
    (fun i => get_coordinates (i32_of_usize i))

/-- Parity-selected current buffer: the selection rule used by both
`handle_mouse` and the tick (`cycle % 2 == 0` means `board_1` is current).
This is the spec's `current_buffer()`. -/
def GameState.currentBoard (s : GameState) : Board :=
  match s.cycle % 2 with
  | 0 => s.board_1
  | _ => s.board_2

/-- Parity-selected "next" buffer: the write target of the next step. -/
def GameState.futureBoard (s : GameState) : Board :=
  match s.cycle % 2 with
  | 0 => s.board_2
  | _ => s.board_1

/-- Spec-side rule table ("alive stays alive iff 2 or 3 alive neighbors, a
dead cell becomes alive iff exactly 3"), written from the spec's words for
comparison with the source's `next_cell`. -/
def specLifeRule (s n : Nat) : Nat :=
  if s = 1 then (if n = 2 ∨ n = 3 then 1 else 0)
  else (if n = 3 then 1 else 0)

/-- Spec-side Moore-neighborhood count, written from the spec's words:
"sums the state of the 8 Moore-neighborhood cells using `get`, treating
out-of-bounds neighbors as 0 (dead)".  Coordinates are taken as honest
integers; a conceptually negative neighbor coordinate is out of bounds. -/
def specMooreCount (b : Board) (x y : Int) : Nat :=
  (neighbor_coordinates.map
    (fun o =>
      if 0 ≤ x + o.1 ∧ 0 ≤ y + o.2 then
        (b.get_cell (x + o.1).toNat (y + o.2).toNat).getD 0
      else 0)).sum

/-- Board invariants stated by the spec: the flat vector's length is
`width * height` and every stored value is 0 or 1. -/
def boardInv (b : Board) : Prop :=
  b.cells.length = b.width * b.height ∧ ∀ c ∈ b.cells, c = 0 ∨ c = 1

/-- Iterated stepping harness for the glider claims: each step writes the
board into a fresh all-dead target of the same dimensions (target contents
are irrelevant because `update` overwrites them). -/
def iterateStep : Nat → Board → Option Board
  | 0, b => some b
  | n + 1, b => (b.update (Board.new b.width b.height)).bind (iterateStep n)

/-- Board holding exactly the given alive cells on a `width × height` grid
(used to build concrete test boards). -/
def boardOfCells (width height : Nat) (alive : List (Nat × Nat)) : Board :=
  { cells := (List.range (width * height)).map
      (fun i => if (i % width, i / width) ∈ alive then 1 else 0)
    width := width
    height := height }

/-- Concrete 2x2 all-alive board (a Game of Life block still life). -/
def blockBoard : Board := { cells := [1, 1, 1, 1], width := 2, height := 2 }

/-- Concrete 2x2 all-dead target board for stepping `blockBoard`. -/
def blockTarget : Board := { cells := [0, 0, 0, 0], width := 2, height := 2 }

/-- Concrete 5x5 board with exactly one alive cell at (2,2). -/
def b5x5 : Board := boardOfCells 5 5 [(2, 2)]

/-- Concrete 100x5 board with exactly one alive cell at (2,2). -/
def neighborProbe : Board := boardOfCells 100 5 [(2, 2)]

/-- Standard 5-cell glider seeded on a 10x10 grid. -/
def glider10 : Board := boardOfCells 10 10 [(1, 0), (2, 1), (0, 2), (1, 2), (2, 2)]

/-- All-dead 10x10 board. -/
def allDead10 : Board := boardOfCells 10 10 []

/-- The glider pattern translated by (1,1) on a 10x10 grid. -/
def shifted10 : Board := boardOfCells 10 10 [(2, 1), (3, 2), (1, 3), (2, 3), (3, 3)]

/-- Standard 5-cell glider seeded on a 100x4 grid (width = `GRID_WIDTH`). -/
def glider100x4 : Board := boardOfCells 100 4 [(1, 0), (2, 1), (0, 2), (1, 2), (2, 2)]

/-- Generation 1 of the glider on the 100x4 grid. -/
def gliderGen1 : Board := boardOfCells 100 4 [(0, 1), (2, 1), (1, 2), (2, 2), (1, 3)]

/-- Generation 2 of the glider on the 100x4 grid. -/
def gliderGen2 : Board := boardOfCells 100 4 [(2, 1), (0, 2), (2, 2), (1, 3), (2, 3)]

/-- Generation 3 of the glider on the 100x4 grid. -/
def gliderGen3 : Board := boardOfCells 100 4 [(1, 1), (2, 2), (3, 2), (1, 3), (2, 3)]

/-- The glider pattern translated by (1,1) on a 100x4 grid. -/
def shifted100x4 : Board := boardOfCells 100 4 [(2, 1), (3, 2), (1, 3), (2, 3), (3, 3)]

/-- Small concrete controller state for buffer-swap witnesses. -/
def tickProbeA : GameState :=
  { board_1 := { cells := [1, 1, 0, 0], width := 2, height := 2 }
    board_2 := { cells := [0, 0, 0, 0], width := 2, height := 2 }
    mouse_down := false
    cycle := 0
    last_update := 0
    update_interval := 5 }

/-- Small concrete controller state for timing-gate witnesses. -/
def tickProbeB : GameState :=
  { board_1 := { cells := [0, 1, 1, 0], width := 2, height := 2 }
    board_2 := { cells := [1, 1, 1, 1], width := 2, height := 2 }
    mouse_down := false
    cycle := 1
    last_update := 10
    update_interval := 4 }

/-- Small concrete controller state with a 1x1 grid for pointer witnesses. -/
def edgeProbe : GameState :=
  { board_1 := { cells := [0], width := 1, height := 1 }
    board_2 := { cells := [0], width := 1, height := 1 }
    mouse_down := false
    cycle := 0
    last_update := 0
    update_interval := 5 }

/-- Concrete controller state whose `u32` generation counter sits at
`u32::MAX`, about to wrap. -/
def wrapProbe : GameState :=
  { board_1 := { cells := [0], width := 1, height := 1 }
    board_2 := { cells := [0], width := 1, height := 1 }
    mouse_down := false
    cycle := 4294967295
    last_update := 0
    update_interval := 1 }

/-- Small concrete controller state for pointer frame-effect witnesses. -/
def frameProbe : GameState :=
  { board_1 := { cells := [0, 1, 0, 0, 0, 0], width := 3, height := 2 }
    board_2 := { cells := [1, 0, 0, 0, 0, 1], width := 3, height := 2 }
    mouse_down := true
    cycle := 0
    last_update := 2
    update_interval := 9 }

/-- State reached from `GameState::new` by one pointer-down at screen
coordinates (0, 0): cell (0,0) of `board_1` set alive. -/
def clickedState : GameState :=
  { GameState.new 0 with board_1 := (GameState.new 0).board_1.set 0 0 1 }

/-!
Helper lemmas about the embedded operations.
-/

lemma u32_of_i32_neg_one (z : Int) (h0 : -1 ≤ z) (h1 : z < 0) :
    u32_of_i32 z = 4294967295 := by
  unfold u32_of_i32 U32_MOD; omega

lemma get_cell_oob_y (b : Board) (hh : b.height ≤ 4294967295) (x : Nat) :
    b.get_cell x 4294967295 = none := by
  unfold Board.get_cell
  rw [if_neg]
  omega

lemma u32_of_i32_nonneg (z : Int) (h0 : 0 ≤ z) (h1 : z < 4294967296) :
    u32_of_i32 z = z.toNat := by
  unfold u32_of_i32 U32_MOD; omega

lemma get_cell_oob_x (b : Board) (hw : b.width ≤ 4294967295) (y : Nat) :
    b.get_cell 4294967295 y = none := by
  unfold Board.get_cell
  rw [if_neg]
  omega

lemma read_eq (b : Board) (hw : b.width ≤ 4294967295) (hh : b.height ≤ 4294967295)
    (x y : Nat) (hx : x < 100) (hy : (y : Int) + 1 < 4294967296) (dx dy : Int)
    (hdx1 : -1 ≤ dx) (hdx2 : dx ≤ 1) (hdy1 : -1 ≤ dy) (hdy2 : dy ≤ 1) :
    (b.get_cell (u32_of_i32 ((x : Int) + dx)) (u32_of_i32 ((y : Int) + dy))).getD 0
      = (if 0 ≤ (x : Int) + dx ∧ 0 ≤ (y : Int) + dy then
          (b.get_cell ((x : Int) + dx).toNat ((y : Int) + dy).toNat).getD 0
        else 0) := by
  by_cases hxd : 0 ≤ (x : Int) + dx
  · by_cases hyd : 0 ≤ (y : Int) + dy
    · rw [if_pos ⟨hxd, hyd⟩, u32_of_i32_nonneg _ hxd (by omega),
        u32_of_i32_nonneg _ hyd (by omega)]
    · rw [if_neg (fun hc => hyd hc.2)]
      rw [u32_of_i32_neg_one ((y : Int) + dy) (by omega) (by omega)]
      rw [get_cell_oob_y b hh]
      rfl
  · rw [if_neg (fun hc => hxd hc.1)]
    rw [u32_of_i32_neg_one ((x : Int) + dx) (by omega) (by omega)]
    rw [get_cell_oob_x b hw]
    rfl

lemma neighbor_offsets_bounds :
    ∀ o ∈ neighbor_coordinates, -1 ≤ o.1 ∧ o.1 ≤ 1 ∧ -1 ≤ o.2 ∧ o.2 ≤ 1 := by decide

lemma getD_le_one (l : List Nat) (h : ∀ c ∈ l, c = 0 ∨ c = 1) (i : Nat) : l.getD i 0 ≤ 1 := by
  by_cases hi : i < l.length
  · rw [List.getD_eq_getElem l 0 hi]
    rcases h l[i] (List.getElem_mem hi) with h' | h' <;> omega
  · rw [List.getD_eq_default l 0 (by omega)]
    omega

lemma get_cell_getD_le_one (b : Board) (hbin : ∀ c ∈ b.cells, c = 0 ∨ c = 1) (x y : Nat) :
    (b.get_cell x y).getD 0 ≤ 1 := by
  unfold Board.get_cell
  split
  · exact getD_le_one b.cells hbin _
  · simp

lemma sum_le_length (l : List Nat) (h : ∀ x ∈ l, x ≤ 1) : l.sum ≤ l.length := by
  induction l with
  | nil => simp
  | cons a t ih =>
    simp only [List.sum_cons, List.length_cons]
    have ha := h a (List.mem_cons_self a t)
    have := ih (fun x hx => h x (List.mem_cons_of_mem a hx))
    omega

lemma foldl_count_eq (g : Int × Int → Option Nat) (l : List (Int × Int))
    (hread : ∀ o ∈ l, (g o).getD 0 ≤ 1) (acc : Nat) (hacc : acc + l.length ≤ 255) :
    (l.foldl (fun count o =>
        match g o with
        | some cell => (count + cell) % 256
        | none => count) acc)
      = acc + (l.map (fun o => (g o).getD 0)).sum := by
  induction l generalizing acc with
  | nil => simp
  | cons o t ih =>
    simp only [List.foldl_cons, List.map_cons, List.sum_cons, List.length_cons] at *
    have ht : ∀ o' ∈ t, (g o').getD 0 ≤ 1 :=
      fun o' ho' => hread o' (List.mem_cons_of_mem o ho')
    cases hg : g o with
    | none =>
      simp only [hg]
      rw [ih ht acc (by omega)]
      simp
    | some c =>
      have hc : c ≤ 1 := by
        have := hread o (List.mem_cons_self o t)
        rw [hg] at this
        simpa using this
      simp only [hg]
      rw [Nat.mod_eq_of_lt (by omega)]
      rw [ih ht (acc + c) (by omega)]
      simp [Nat.add_assoc]

lemma i32_of_usize_small (n : Nat) (h : n < 2 ^ 31) : i32_of_usize n = (n : Int) := by
  have hm : n % U32_MOD = n := Nat.mod_eq_of_lt (by unfold U32_MOD; omega)
  unfold i32_of_usize
  rw [hm, if_pos h]

lemma get_coordinates_natCast (n : Nat) :
    get_coordinates ((n : Nat) : Int) = (((n % 100 : Nat) : Int), ((n / 100 : Nat) : Int)) := rfl

lemma count_eq_spec (b : Board) (hw : b.width = 100) (hh : b.height ≤ 4294967295)
    (hbin : ∀ c ∈ b.cells, c = 0 ∨ c = 1) (i : Nat) (hi : i < 2 ^ 31) :
    b.count_alive_neighbors (i32_of_usize i)
      = specMooreCount b ((i % 100 : Nat) : Int) ((i / 100 : Nat) : Int) := by
  rw [i32_of_usize_small i hi]
  unfold Board.count_alive_neighbors
  rw [get_coordinates_natCast]
  have hfold := foldl_count_eq
    (fun o => b.get_cell (u32_of_i32 (((i % 100 : Nat) : Int) + o.1))
                         (u32_of_i32 (((i / 100 : Nat) : Int) + o.2)))
    neighbor_coordinates
    (fun o _ => get_cell_getD_le_one b hbin _ _)
    0 (by norm_num [neighbor_coordinates])
  refine Eq.trans hfold ?_
  rw [Nat.zero_add]
  unfold specMooreCount
  rw [List.map_congr_left]
  intro o ho
  obtain ⟨h1, h2, h3, h4⟩ := neighbor_offsets_bounds o ho
  exact read_eq b (by omega) hh (i % 100) (i / 100) (Nat.mod_lt _ (by norm_num))
    (by omega) o.1 o.2 h1 h2 h3 h4

lemma next_cell_eq_rule (b : Board) (i : Nat) (hc : b.cells.getD i 0 = 0 ∨ b.cells.getD i 0 = 1) :
    b.next_cell i
      = specLifeRule (b.cells.getD i 0) (b.count_alive_neighbors (i32_of_usize i)) := by
  unfold Board.next_cell specLifeRule
  split
  · rename_i h1 h2
    rw [h1, h2]
    norm_num
  · rename_i h1 h2
    rw [h1, h2]
    norm_num
  · rename_i h1 h2
    rw [h1, h2]
    norm_num
  · rename_i h1 h2 h3
    rcases hc with h | h <;> rw [h]
    · rw [if_neg (by omega), if_neg (fun hn => h3 h hn)]
    · rw [if_pos rfl, if_neg (fun hn => hn.elim (fun h2' => h1 h h2') (fun h3' => h2 h h3'))]

lemma update_eq (b f : Board) (h : b.cells.length ≤ f.cells.length) :
    b.update f = some { f with cells := (List.range b.cells.length).map b.next_cell
                                          ++ f.cells.drop b.cells.length } := by
  unfold Board.update
  rw [if_neg (by omega)]

lemma update_length (b f r : Board) (hu : b.update f = some r) :
    r.cells.length = f.cells.length ∧ r.width = f.width ∧ r.height = f.height := by
  unfold Board.update at hu
  by_cases h : f.cells.length < b.cells.length
  · rw [if_pos h] at hu
    cases hu
  · rw [if_neg h] at hu
    cases hu
    refine ⟨?_, rfl, rfl⟩
    simp only [List.length_append, List.length_map, List.length_range, List.length_drop]
    omega

lemma update_getD (b f r : Board) (hu : b.update f = some r) (i : Nat)
    (hi : i < b.cells.length) :
    r.cells.getD i 0 = b.next_cell i := by
  unfold Board.update at hu
  by_cases h : f.cells.length < b.cells.length
  · rw [if_pos h] at hu
    cases hu
  · rw [if_neg h] at hu
    cases hu
    rw [List.getD_append _ _ _ _ (by simpa using hi)]
    rw [List.getD_eq_getElem _ _ (by simpa using hi)]
    simp

lemma idx_lt (w h x y : Nat) (hx : x < w) (hy : y < h) : y * w + x < w * h := by
  have h1 : y * w + x < (y + 1) * w := by
    rw [Nat.succ_mul]
    omega
  have h2 : (y + 1) * w ≤ h * w := Nat.mul_le_mul_right w (by omega)
  rw [Nat.mul_comm w h]
  omega

lemma idx_mod (w h x y : Nat) (hx : x < w) (hy : y < h) (hsz : w * h < U32_MOD) :
    (y * w + x) % U32_MOD = y * w + x :=
  Nat.mod_eq_of_lt (Nat.lt_trans (idx_lt w h x y hx hy) hsz)

lemma idx_inj (w x y x' y' : Nat) (hx : x < w) (hx' : x' < w)
    (h : y * w + x = y' * w + x') : x = x' ∧ y = y' := by
  have hw : 0 < w := by omega
  have e1 : (w * y + x) % w = x % w := Nat.mul_add_mod w y x
  have e2 : (w * y' + x') % w = x' % w := Nat.mul_add_mod w y' x'
  have e3 : (w * y + x) / w = y + x / w := Nat.mul_add_div hw y x
  have e4 : (w * y' + x') / w = y' + x' / w := Nat.mul_add_div hw y' x'
  have hxm : x % w = x := Nat.mod_eq_of_lt hx
  have hxm' : x' % w = x' := Nat.mod_eq_of_lt hx'
  have hxd : x / w = 0 := Nat.div_eq_of_lt hx
  have hxd' : x' / w = 0 := Nat.div_eq_of_lt hx'
  rw [Nat.mul_comm y w, Nat.mul_comm y' w] at h
  constructor
  · rw [h] at e1
    omega
  · rw [h] at e3
    omega

lemma list_getD_set_self (l : List Nat) (i v d : Nat) (h : i < l.length) :
    (l.set i v).getD i d = v := by
  rw [List.getD_eq_getElem _ _ (by simpa using h)]
  simp

lemma list_getD_set_ne (l : List Nat) (i j v d : Nat) (h : i ≠ j) :
    (l.set i v).getD j d = l.getD j d := by
  by_cases hj : j < l.length
  · rw [List.getD_eq_getElem _ _ (by simpa using hj), List.getD_eq_getElem _ _ hj]
    exact List.getElem_set_ne h (by simpa using hj)
  · rw [List.getD_eq_default _ _ (by simp; omega), List.getD_eq_default _ _ (by omega)]

lemma set_oob (b : Board) (x y v : Nat) (h : b.width ≤ x ∨ b.height ≤ y) :
    b.set x y v = b := by
  unfold Board.set
  rw [if_neg (by omega)]

lemma get_cell_set (b : Board) (hinv : b.cells.length = b.width * b.height)
    (hsz : b.width * b.height < U32_MOD) (x y v x' y' : Nat)
    (hx' : x' < b.width) (hy' : y' < b.height) :
    (b.set x y v).get_cell x' y'
      = if x' = x ∧ y' = y then some v else b.get_cell x' y' := by
  by_cases hxy : x < b.width ∧ y < b.height
  · unfold Board.set
    rw [if_pos hxy]
    by_cases heq : x' = x ∧ y' = y
    · rw [if_pos heq]
      unfold Board.get_cell
      simp only
      rw [if_pos (⟨hx', hy'⟩ : x' < b.width ∧ y' < b.height)]
      rw [idx_mod b.width b.height x y hxy.1 hxy.2 hsz,
          idx_mod b.width b.height x' y' hx' hy' hsz]
      rw [heq.1, heq.2]
      rw [list_getD_set_self _ _ _ _ (by rw [hinv]; exact idx_lt _ _ _ _ hxy.1 hxy.2)]
    · rw [if_neg heq]
      unfold Board.get_cell
      simp only
      rw [if_pos (⟨hx', hy'⟩ : x' < b.width ∧ y' < b.height),
          if_pos (⟨hx', hy'⟩ : x' < b.width ∧ y' < b.height)]
      rw [idx_mod b.width b.height x y hxy.1 hxy.2 hsz,
          idx_mod b.width b.height x' y' hx' hy' hsz]
      rw [list_getD_set_ne]
      intro hcontra
      exact heq ⟨(idx_inj b.width x y x' y' hxy.1 hx' hcontra).1.symm,
                 (idx_inj b.width x y x' y' hxy.1 hx' hcontra).2.symm⟩
  · rw [set_oob b x y v (by omega)]
    rw [if_neg (fun hc : x' = x ∧ y' = y => hxy ⟨hc.1 ▸ hx', hc.2 ▸ hy'⟩)]

lemma getD_binary (l : List Nat) (h : ∀ c ∈ l, c = 0 ∨ c = 1) (i : Nat) :
    l.getD i 0 = 0 ∨ l.getD i 0 = 1 := by
  by_cases hi : i < l.length
  · rw [List.getD_eq_getElem l 0 hi]
    exact h l[i] (List.getElem_mem hi)
  · rw [List.getD_eq_default l 0 (by omega)]
    left
    rfl

lemma next_cell_binary (b : Board) (i : Nat) : b.next_cell i = 0 ∨ b.next_cell i = 1 := by
  unfold Board.next_cell
  split <;> simp

lemma specMooreCount_le_8 (b : Board) (hbin : ∀ c ∈ b.cells, c = 0 ∨ c = 1) (x y : Int) :
    specMooreCount b x y ≤ 8 := by
  unfold specMooreCount
  refine le_trans (sum_le_length _ ?_) (by simp [neighbor_coordinates])
  intro v hv
  obtain ⟨o, ho, rfl⟩ := List.mem_map.mp hv
  split
  · exact get_cell_getD_le_one b hbin _ _
  · omega

lemma set_width (b : Board) (x y v : Nat) : (b.set x y v).width = b.width := by
  unfold Board.set
  split <;> rfl

lemma set_height (b : Board) (x y v : Nat) : (b.set x y v).height = b.height := by
  unfold Board.set
  split <;> rfl

lemma set_length (b : Board) (x y v : Nat) :
    (b.set x y v).cells.length = b.cells.length := by
  unfold Board.set
  split
  · exact List.length_set b.cells _ v
  · rfl

lemma handle_mouse_even (s : GameState) (h : s.cycle % 2 = 0) (x y : ℚ) :
    s.handle_mouse x y
      = { s with board_1 := s.board_1.set (u32_of_f32 (x / (GRID_CELL_SIZE : ℚ)))
                                          (u32_of_f32 (y / (GRID_CELL_SIZE : ℚ))) 1 } := by
  unfold GameState.handle_mouse
  rw [h]

lemma handle_mouse_odd (s : GameState) (h : s.cycle % 2 = 1) (x y : ℚ) :
    s.handle_mouse x y
      = { s with board_2 := s.board_2.set (u32_of_f32 (x / (GRID_CELL_SIZE : ℚ)))
                                          (u32_of_f32 (y / (GRID_CELL_SIZE : ℚ))) 1 } := by
  unfold GameState.handle_mouse
  rw [h]

lemma tick_even (s : GameState) (now : Nat)
    (hstep : s.update_interval ≤ now - s.last_update) (h : s.cycle % 2 = 0) :
    s.tick now = (s.board_1.update s.board_2).map fun b2 =>
        { s with last_update := now, board_2 := b2, cycle := (s.cycle + 1) % U32_MOD } := by
  unfold GameState.tick
  rw [if_pos hstep, h]

lemma tick_odd (s : GameState) (now : Nat)
    (hstep : s.update_interval ≤ now - s.last_update) (h : s.cycle % 2 = 1) :
    s.tick now = (s.board_2.update s.board_1).map fun b1 =>
        { s with last_update := now, board_1 := b1, cycle := (s.cycle + 1) % U32_MOD } := by
  unfold GameState.tick
  rw [if_pos hstep, h]

lemma currentBoard_even (s : GameState) (h : s.cycle % 2 = 0) :
    s.currentBoard = s.board_1 := by
  unfold GameState.currentBoard
  rw [h]

lemma currentBoard_odd (s : GameState) (h : s.cycle % 2 = 1) :
    s.currentBoard = s.board_2 := by
  unfold GameState.currentBoard
  rw [h]

lemma futureBoard_even (s : GameState) (h : s.cycle % 2 = 0) :
    s.futureBoard = s.board_2 := by
  unfold GameState.futureBoard
  rw [h]

lemma futureBoard_odd (s : GameState) (h : s.cycle % 2 = 1) :
    s.futureBoard = s.board_1 := by
  unfold GameState.futureBoard
  rw [h]

/-- C1 (amended): for every source grid whose width is `GRID_WIDTH` (the
only width `get_coordinates` can invert), with binary cells and a cell
vector shorter than 2^31, and every target grid of identical dimensions,
`Board::update` writes into every cell of the target the standard Game of
Life rule evaluated on the pre-step source via the true Moore
neighborhood; the target is fully overwritten and the result is
independent of the target's prior contents.  (The source grid is only
read: the embedding of `update` returns the new target and leaves the
source untouched by construction.) -/
theorem C1_update_rule (b f : Board)
    (hwb : b.width = GRID_WIDTH) (hhb : b.height ≤ 4294967295)
    (hsmall : b.cells.length < 2 ^ 31)
    (hbin : ∀ c ∈ b.cells, c = 0 ∨ c = 1)
    (hwf : f.width = b.width) (hhf : f.height = b.height)
    (hlen : f.cells.length = b.cells.length) :
    ∃ r, b.update f = some r
      ∧ r.width = f.width ∧ r.height = f.height
      ∧ r.cells.length = b.cells.length
      ∧ (∀ i, i < b.cells.length →
          r.cells.getD i 0
            = specLifeRule (b.cells.getD i 0)
                (specMooreCount b ((i % 100 : Nat) : Int) ((i / 100 : Nat) : Int)))
      ∧ (∀ f2 r2, f2.cells.length = b.cells.length → b.update f2 = some r2 →
          r2.cells = r.cells) := by
  have hle : b.cells.length ≤ f.cells.length := le_of_eq hlen.symm
  refine ⟨_, update_eq b f hle, rfl, rfl, ?_, ?_, ?_⟩
  · simp only [List.length_append, List.length_map, List.length_range, List.length_drop]
    omega
  · intro i hi
    rw [update_getD b f _ (update_eq b f hle) i hi]
    rw [next_cell_eq_rule b i (getD_binary _ hbin i)]
    rw [count_eq_spec b hwb hhb hbin i (by omega)]
  · intro f2 r2 hlen2 hu2
    rw [update_eq b f2 (le_of_eq hlen2.symm)] at hu2
    cases hu2
    simp only
    rw [List.drop_eq_nil_of_le (le_of_eq hlen2), List.drop_eq_nil_of_le (le_of_eq hlen)]

/-- C1 (counterexample to the claim as stated): on a 2x2 grid with all
four cells alive (a block, in which every cell has exactly 3 live
neighbors and must survive), `update` kills the cell at (1,1) — because
`get_coordinates` interprets flat indices with the global `GRID_WIDTH`
(100), not the grid's own width — while the spec's rule table keeps it
alive. -/
theorem C1_counterexample :
    (blockBoard.update blockTarget).map (fun r => r.cells.getD 3 0) = some 0
    ∧ specLifeRule (blockBoard.cells.getD 3 0) (specMooreCount blockBoard 1 1) = 1 := by
  decide

/-- Witness for `C1_update_rule` at a concrete 100x2 pair of grids. -/
theorem C1_update_rule_witness :
    ∃ r, (Board.new 100 2).update (Board.new 100 2) = some r
      ∧ r.cells.length = (Board.new 100 2).cells.length := by
  obtain ⟨r, h1, _, _, h2, _, _⟩ :=
    C1_update_rule (Board.new 100 2) (Board.new 100 2) rfl (by decide) (by decide)
      (by decide) rfl rfl rfl
  exact ⟨r, h1, h2⟩

/-- C3 (amended): on grids of width `GRID_WIDTH` (100) with binary cells,
`count_alive_neighbors` at any flat index below 2^31 returns exactly the
sum of the 8 Moore-neighborhood cells read via `get` (out-of-bounds
neighbors counting 0), and the result is in [0,8]. -/
theorem C3_count_spec (b : Board) (hw : b.width = GRID_WIDTH) (hh : b.height ≤ 4294967295)
    (hbin : ∀ c ∈ b.cells, c = 0 ∨ c = 1) (i : Nat) (hi : i < 2 ^ 31) :
    b.count_alive_neighbors (i32_of_usize i)
      = specMooreCount b ((i % 100 : Nat) : Int) ((i / 100 : Nat) : Int)
    ∧ b.count_alive_neighbors (i32_of_usize i) ≤ 8 := by
  have h := count_eq_spec b hw hh hbin i hi
  refine ⟨h, ?_⟩
  rw [h]
  exact specMooreCount_le_8 b hbin _ _

/-- Witness for `C3_count_spec`: on a 100x5 grid whose only alive cell is
(2,2), the count at flat index 101 = cell (1,1) agrees with the spec-side
Moore count, which there equals 1. -/
theorem C3_count_spec_witness :
    (neighborProbe.count_alive_neighbors (i32_of_usize 101)
        = specMooreCount neighborProbe ((101 % 100 : Nat) : Int) ((101 / 100 : Nat) : Int)
      ∧ neighborProbe.count_alive_neighbors (i32_of_usize 101) ≤ 8)
    ∧ specMooreCount neighborProbe ((101 % 100 : Nat) : Int) ((101 / 100 : Nat) : Int) = 1 :=
  ⟨C3_count_spec neighborProbe rfl (by decide) (by decide) 101 (by decide), by decide⟩

/-- C3 (counterexample to the claim as stated): on a 5x5 grid whose only
alive cell is (2,2), `count_alive_neighbors` at flat index 6 — the
neighbor (1,1) of (2,2), where the claim requires 1 — returns 0, because
`get_coordinates` decodes index 6 with the global `GRID_WIDTH` = 100
instead of the grid's own width; the spec-side Moore count at (1,1) is 1. -/
theorem C3_counterexample :
    b5x5.get_cell 2 2 = some 1
    ∧ b5x5.count_alive_neighbors (i32_of_usize 6) = 0
    ∧ specMooreCount b5x5 1 1 = 1 := by
  decide

/-- C9 (confirmed): construction (for dimension products in u32 range),
`randomize`, `update` (when it returns a grid) and the interactive
set-alive write all preserve the grid invariants: the cell vector's
length equals `width * height`, the dimensions are unchanged, and every
cell value is 0 or 1. -/
theorem C9_invariants :
    (∀ w h : Nat, w * h < U32_MOD →
      boardInv (Board.new w h) ∧ (Board.new w h).width = w ∧ (Board.new w h).height = h)
    ∧ (∀ b : Board, boardInv b →
        boardInv b.randomize ∧ b.randomize.width = b.width
          ∧ b.randomize.height = b.height)
    ∧ (∀ b f r : Board, boardInv f → b.update f = some r →
        boardInv r ∧ r.width = f.width ∧ r.height = f.height)
    ∧ (∀ (b : Board) (x y : Nat), boardInv b →
        boardInv (b.set x y 1) ∧ (b.set x y 1).width = b.width
          ∧ (b.set x y 1).height = b.height) := by
  refine ⟨?_, ?_, ?_, ?_⟩
  · intro w h hsz
    refine ⟨⟨?_, ?_⟩, rfl, rfl⟩
    · simp only [Board.new, List.length_replicate]
      exact Nat.mod_eq_of_lt hsz
    · intro c hc
      left
      exact (List.eq_of_mem_replicate hc)
  · intro b hb
    refine ⟨⟨?_, ?_⟩, rfl, rfl⟩
    · simp only [Board.randomize, List.length_map, List.length_range]
      exact hb.1
    · intro c hc
      simp only [Board.randomize, List.mem_map] at hc
      obtain ⟨i, _, rfl⟩ := hc
      split <;> simp
  · intro b f r hf hu
    unfold Board.update at hu
    by_cases hcase : f.cells.length < b.cells.length
    · rw [if_pos hcase] at hu
      cases hu
    · rw [if_neg hcase] at hu
      cases hu
      refine ⟨⟨?_, ?_⟩, rfl, rfl⟩
      · simp only [List.length_append, List.length_map, List.length_range,
          List.length_drop]
        have := hf.1
        omega
      · intro c hc
        rcases List.mem_append.mp hc with hc | hc
        · obtain ⟨i, _, rfl⟩ := List.mem_map.mp hc
          exact next_cell_binary b i
        · exact hf.2 c (List.mem_of_mem_drop hc)
  · intro b x y hb
    refine ⟨⟨?_, ?_⟩, set_width b x y 1, set_height b x y 1⟩
    · rw [set_length b x y 1, set_width b x y 1, set_height b x y 1]
      exact hb.1
    · intro c hc
      unfold Board.set at hc
      by_cases hxy : x < b.width ∧ y < b.height
      · rw [if_pos hxy] at hc
        simp only at hc
        rcases List.mem_or_eq_of_mem_set hc with hc | hc
        · exact hb.2 c hc
        · right
          exact hc
      · rw [if_neg hxy] at hc
        exact hb.2 c hc

/-- Witness for `C9_invariants` on concrete 3x4 grids. -/
theorem C9_invariants_witness :
    boardInv (Board.new 3 4) ∧ boardInv ((boardOfCells 3 4 []).set 1 2 1) :=
  ⟨(C9_invariants.1 3 4 (by decide)).1,
   (C9_invariants.2.2.2 (boardOfCells 3 4 []) 1 2 (by exact ⟨by decide, by decide⟩)).1⟩

/-- C5 (counterexample to the claim as stated): at `cycle = u32::MAX`
(4294967295) an accepted tick wraps the `u32` generation counter to 0
instead of increasing it by exactly one. -/
theorem C5_counterexample :
    (wrapProbe.tick 5).map GameState.cycle = some 0
    ∧ (wrapProbe.tick 5).map GameState.cycle ≠ some (wrapProbe.cycle + 1) := by
  decide

/-- C5 (amended): whenever the tick performs a step, the new state's
generation counter is the old one plus 1 modulo 2^32 (exactly plus 1
whenever the counter is below `u32::MAX`, where the `u32` increment
wraps), the generation parity flips, and the parity-selected current
buffer of the new state is exactly the output that `Board::update` wrote
from the old current buffer into the old "next" buffer — the freshly
computed generation, not the pre-step state. -/
theorem C5_buffer_swap (s : GameState) (now : Nat)
    (hstep : s.update_interval ≤ now - s.last_update)
    (hlen : s.board_1.cells.length = s.board_2.cells.length) :
    ∃ s', s.tick now = some s'
      ∧ s'.cycle = (s.cycle + 1) % U32_MOD
      ∧ (s.cycle < 4294967295 → s'.cycle = s.cycle + 1)
      ∧ s'.cycle % 2 ≠ s.cycle % 2
      ∧ s.currentBoard.update s.futureBoard = some s'.currentBoard
      ∧ s'.last_update = now := by
  rcases Nat.mod_two_eq_zero_or_one s.cycle with h | h
  · rw [tick_even s now hstep h, update_eq _ _ (le_of_eq hlen), Option.map_some']
    refine ⟨_, rfl, rfl,
      show s.cycle < 4294967295 → (s.cycle + 1) % U32_MOD = s.cycle + 1 from
        fun hlt => Nat.mod_eq_of_lt (by unfold U32_MOD; omega),
      show (s.cycle + 1) % U32_MOD % 2 ≠ s.cycle % 2 by unfold U32_MOD; omega,
      ?_, rfl⟩
    rw [currentBoard_even s h, futureBoard_even s h]
    rw [currentBoard_odd _
      (show (s.cycle + 1) % U32_MOD % 2 = 1 by unfold U32_MOD; omega)]
    exact update_eq _ _ (le_of_eq hlen)
  · rw [tick_odd s now hstep h, update_eq _ _ (le_of_eq hlen.symm), Option.map_some']
    refine ⟨_, rfl, rfl,
      show s.cycle < 4294967295 → (s.cycle + 1) % U32_MOD = s.cycle + 1 from
        fun hlt => Nat.mod_eq_of_lt (by unfold U32_MOD; omega),
      show (s.cycle + 1) % U32_MOD % 2 ≠ s.cycle % 2 by unfold U32_MOD; omega,
      ?_, rfl⟩
    rw [currentBoard_odd s h, futureBoard_odd s h]
    rw [currentBoard_even _
      (show (s.cycle + 1) % U32_MOD % 2 = 0 by unfold U32_MOD; omega)]
    exact update_eq _ _ (le_of_eq hlen.symm)

/-- Witness for `C5_buffer_swap` on a concrete 2x2 controller state. -/
theorem C5_buffer_swap_witness :
    ∃ s', tickProbeA.tick 7 = some s'
      ∧ s'.cycle = (tickProbeA.cycle + 1) % U32_MOD
      ∧ (tickProbeA.cycle < 4294967295 → s'.cycle = tickProbeA.cycle + 1)
      ∧ s'.cycle % 2 ≠ tickProbeA.cycle % 2
      ∧ tickProbeA.currentBoard.update tickProbeA.futureBoard = some s'.currentBoard
      ∧ s'.last_update = 7 :=
  C5_buffer_swap tickProbeA 7 (by decide) (by decide)

/-- C6 (confirmed): under the length invariant (and the u32 bound on
`width * height`), `get_cell` returns `none` exactly for out-of-bounds
coordinates; after an in-bounds `set`, `get_cell` at the written cell
returns the written state and every other in-bounds cell is unchanged;
an out-of-bounds `set` is a silent no-op returning the grid unchanged. -/
theorem C6_get_set_contract (b : Board) (x y : Nat)
    (hinv : b.cells.length = b.width * b.height)
    (hsz : b.width * b.height < U32_MOD) :
    (b.get_cell x y = none ↔ b.width ≤ x ∨ b.height ≤ y)
    ∧ (∀ v, x < b.width → y < b.height → (b.set x y v).get_cell x y = some v)
    ∧ (∀ v x' y', x' < b.width → y' < b.height → ¬(x' = x ∧ y' = y) →
        (b.set x y v).get_cell x' y' = b.get_cell x' y')
    ∧ (b.width ≤ x ∨ b.height ≤ y → ∀ v, b.set x y v = b) := by
  refine ⟨?_, ?_, ?_, ?_⟩
  · unfold Board.get_cell
    split
    · rename_i hcond
      simp only [reduceCtorEq, false_iff]
      omega
    · rename_i hcond
      simp only [true_iff]
      omega
  · intro v hx hy
    rw [get_cell_set b hinv hsz x y v x y hx hy, if_pos ⟨rfl, rfl⟩]
  · intro v x' y' hx' hy' hne
    rw [get_cell_set b hinv hsz x y v x' y' hx' hy', if_neg hne]
  · intro h v
    exact set_oob b x y v h

/-- Witness for `C6_get_set_contract`: set-then-get at (1,2) on a 3x3
grid. -/
theorem C6_get_set_contract_witness :
    ((boardOfCells 3 3 []).set 1 2 1).get_cell 1 2 = some 1 :=
  (C6_get_set_contract (boardOfCells 3 3 []) 1 2 (by decide) (by decide)).2.1 1
    (by decide) (by decide)

/-- C8 (confirmed): the tick performs a step exactly when
`now - last_update >= update_interval` (saturating `Instant`
subtraction); an accepted step records `now` and increments the counter,
after which the step condition is false at the same instant (the interval
being positive, as `GameState::new`'s 1/60 s interval is); a rejected
tick returns the state unchanged — boards, counter and timestamp.  (The
step is marked by the faithful wrapped `u32` counter increment.) -/
theorem C8_tick_gate (s : GameState) (now : Nat) :
    ((s.update_interval ≤ now - s.last_update
        ∧ s.board_1.cells.length = s.board_2.cells.length) →
      ∃ s', s.tick now = some s'
        ∧ s'.cycle = (s.cycle + 1) % U32_MOD
        ∧ s'.last_update = now
        ∧ s'.update_interval = s.update_interval
        ∧ (0 < s.update_interval → ¬ s'.update_interval ≤ now - s'.last_update))
    ∧ (¬ s.update_interval ≤ now - s.last_update → s.tick now = some s)
    ∧ 0 < (GameState.new now).update_interval := by
  refine ⟨?_, ?_, ?_⟩
  · rintro ⟨hstep, hlen⟩
    rcases Nat.mod_two_eq_zero_or_one s.cycle with h | h
    · rw [tick_even s now hstep h, update_eq _ _ (le_of_eq hlen), Option.map_some']
      exact ⟨_, rfl, rfl, rfl, rfl,
        fun hpos => show ¬ s.update_interval ≤ now - now by omega⟩
    · rw [tick_odd s now hstep h, update_eq _ _ (le_of_eq hlen.symm), Option.map_some']
      exact ⟨_, rfl, rfl, rfl, rfl,
        fun hpos => show ¬ s.update_interval ≤ now - now by omega⟩
  · intro hno
    unfold GameState.tick
    rw [if_neg hno]
  · show 0 < UPDATE_INTERVAL
    decide

/-- Witness for `C8_tick_gate`: a concrete state stepping at `now = 15`
(elapsed 5 >= interval 4) and not stepping at `now = 12` (elapsed 2). -/
theorem C8_tick_gate_witness :
    (∃ s', tickProbeB.tick 15 = some s'
      ∧ s'.cycle = (tickProbeB.cycle + 1) % U32_MOD
      ∧ s'.last_update = 15
      ∧ s'.update_interval = tickProbeB.update_interval
      ∧ (0 < tickProbeB.update_interval → ¬ s'.update_interval ≤ 15 - s'.last_update))
    ∧ tickProbeB.tick 12 = some tickProbeB :=
  ⟨(C8_tick_gate tickProbeB 15).1 ⟨by decide, by decide⟩,
   (C8_tick_gate tickProbeB 12).2.1 (by decide)⟩

/-- C10 (confirmed): a single `handle_mouse` call leaves the generation
counter, the timestamps, the mouse flag, and the whole non-current buffer
unchanged, and rewrites the parity-selected current buffer at exactly the
one computed grid cell — to alive (1), never to dead; every other
in-bounds cell of that buffer keeps its state.  (When the computed cell
is out of bounds the `if` below is vacuous and every cell is unchanged.) -/
theorem C10_mouse_frame (s : GameState) (x y : ℚ)
    (hinv : boardInv s.currentBoard)
    (hsz : s.currentBoard.width * s.currentBoard.height < U32_MOD) :
    (s.handle_mouse x y).cycle = s.cycle
    ∧ (s.handle_mouse x y).last_update = s.last_update
    ∧ (s.handle_mouse x y).update_interval = s.update_interval
    ∧ (s.handle_mouse x y).mouse_down = s.mouse_down
    ∧ (s.handle_mouse x y).futureBoard = s.futureBoard
    ∧ (∀ x' y', x' < s.currentBoard.width → y' < s.currentBoard.height →
        (s.handle_mouse x y).currentBoard.get_cell x' y'
          = if x' = u32_of_f32 (x / (GRID_CELL_SIZE : ℚ))
              ∧ y' = u32_of_f32 (y / (GRID_CELL_SIZE : ℚ))
            then some 1
            else s.currentBoard.get_cell x' y') := by
  rcases Nat.mod_two_eq_zero_or_one s.cycle with h | h
  · rw [currentBoard_even s h] at hinv hsz
    rw [handle_mouse_even s h x y]
    simp only [GameState.currentBoard, GameState.futureBoard, h]
    refine ⟨trivial, trivial, trivial, trivial, trivial, ?_⟩
    intro x' y' hx' hy'
    exact get_cell_set s.board_1 hinv.1 hsz _ _ 1 x' y' hx' hy'
  · rw [currentBoard_odd s h] at hinv hsz
    rw [handle_mouse_odd s h x y]
    simp only [GameState.currentBoard, GameState.futureBoard, h]
    refine ⟨trivial, trivial, trivial, trivial, trivial, ?_⟩
    intro x' y' hx' hy'
    exact get_cell_set s.board_2 hinv.1 hsz _ _ 1 x' y' hx' hy'

/-- Witness for `C10_mouse_frame` on a concrete 3x2 controller state and
the pointer event (4, 20), which maps to grid cell (0, 2) — out of
bounds, so every cell is unchanged there. -/
theorem C10_mouse_frame_witness :
    (frameProbe.handle_mouse 4 20).cycle = frameProbe.cycle
    ∧ (frameProbe.handle_mouse 4 20).last_update = frameProbe.last_update
    ∧ (frameProbe.handle_mouse 4 20).update_interval = frameProbe.update_interval
    ∧ (frameProbe.handle_mouse 4 20).mouse_down = frameProbe.mouse_down
    ∧ (frameProbe.handle_mouse 4 20).futureBoard = frameProbe.futureBoard
    ∧ (∀ x' y', x' < frameProbe.currentBoard.width →
        y' < frameProbe.currentBoard.height →
        (frameProbe.handle_mouse 4 20).currentBoard.get_cell x' y'
          = if x' = u32_of_f32 (4 / (GRID_CELL_SIZE : ℚ))
              ∧ y' = u32_of_f32 (20 / (GRID_CELL_SIZE : ℚ))
            then some 1
            else frameProbe.currentBoard.get_cell x' y') :=
  C10_mouse_frame frameProbe 4 20 (by exact ⟨by decide, by decide⟩) (by decide)

/-- C7 (amended): a pointer event whose computed grid coordinates fall
outside both buffers' bounds is a defined no-op: `handle_mouse` returns
the state unchanged.  (Negative screen coordinates do NOT reach this
case: the saturating `f32 -> u32` cast maps them to column/row 0, inside
the grid.) -/
theorem C7_oob_pointer_noop (s : GameState) (x y : ℚ)
    (h1 : s.board_1.width ≤ u32_of_f32 (x / (GRID_CELL_SIZE : ℚ))
        ∨ s.board_1.height ≤ u32_of_f32 (y / (GRID_CELL_SIZE : ℚ)))
    (h2 : s.board_2.width ≤ u32_of_f32 (x / (GRID_CELL_SIZE : ℚ))
        ∨ s.board_2.height ≤ u32_of_f32 (y / (GRID_CELL_SIZE : ℚ))) :
    s.handle_mouse x y = s := by
  rcases Nat.mod_two_eq_zero_or_one s.cycle with h | h
  · rw [handle_mouse_even s h x y, set_oob _ _ _ _ h1]
  · rw [handle_mouse_odd s h x y, set_oob _ _ _ _ h2]

/-- Witness for `C7_oob_pointer_noop`: screen x = 80 maps to grid column
10, outside the 1x1 grid of `edgeProbe`. -/
theorem C7_oob_pointer_noop_witness : edgeProbe.handle_mouse 80 0 = edgeProbe :=
  C7_oob_pointer_noop edgeProbe 80 0
    (Or.inl (by unfold u32_of_f32 GRID_CELL_SIZE; norm_num; decide))
    (Or.inl (by unfold u32_of_f32 GRID_CELL_SIZE; norm_num; decide))

lemma u32_of_f32_neg8 :
    u32_of_f32 ((-8 : ℚ) / (GRID_CELL_SIZE : ℚ)) = 0 := by
  unfold u32_of_f32 GRID_CELL_SIZE
  norm_num

/-- C7 (counterexample to the claim as stated): the pointer event at
screen coordinates (-8, -8) — negative, hence \"outside the grid\" in the
claim's sense — is NOT a no-op: Rust's saturating float-to-u32 cast maps
-8/8 = -1 to 0, so the event sets cell (0,0) of the fresh all-dead state
alive. -/
theorem C7_counterexample :
    ((GameState.new 0).handle_mouse (-8) (-8)).board_1.get_cell 0 0 = some 1
    ∧ (GameState.new 0).board_1.get_cell 0 0 = some 0 := by
  constructor
  · rw [handle_mouse_even (GameState.new 0) rfl (-8) (-8), u32_of_f32_neg8]
    decide
  · decide

lemma u32_of_f32_zero :
    u32_of_f32 ((0 : ℚ) / (GRID_CELL_SIZE : ℚ)) = 0 := by
  unfold u32_of_f32 GRID_CELL_SIZE
  norm_num


lemma new_length (w h : Nat) (hsz : w * h < U32_MOD) :
    (Board.new w h).cells.length = w * h := by
  simp only [Board.new, List.length_replicate]
  exact Nat.mod_eq_of_lt hsz

lemma get_cell_zero_of_update (b f r : Board) (hu : b.update f = some r)
    (h0 : 0 < b.cells.length) (hw : 0 < f.width) (hh : 0 < f.height)
    (hnext : b.next_cell 0 = 0) : r.get_cell 0 0 = some 0 := by
  have hgd := update_getD b f r hu 0 h0
  have hwr : r.width = f.width := (update_length b f r hu).2.1
  have hhr : r.height = f.height := (update_length b f r hu).2.2
  unfold Board.get_cell
  rw [if_pos (⟨by omega, by omega⟩ : 0 < r.width ∧ 0 < r.height)]
  have hidx : (0 * r.width + 0) % U32_MOD = 0 := by simp
  rw [hidx, hgd, hnext]

lemma tick_even_parts (s : GameState) (now : Nat)
    (hstep : s.update_interval ≤ now - s.last_update)
    (h : s.cycle % 2 = 0)
    (hlen : s.board_1.cells.length ≤ s.board_2.cells.length) :
    ∃ s' r, s.tick now = some s'
      ∧ s.board_1.update s.board_2 = some r
      ∧ s'.cycle = (s.cycle + 1) % U32_MOD
      ∧ s'.board_1 = s.board_1
      ∧ s'.board_2 = r
      ∧ s'.currentBoard = r := by
  rw [tick_even s now hstep h, update_eq _ _ hlen, Option.map_some']
  refine ⟨_, _, rfl, rfl, rfl, rfl, rfl, ?_⟩
  exact currentBoard_odd _
    (show (s.cycle + 1) % U32_MOD % 2 = 1 by unfold U32_MOD; omega)

/-- C2 (code bug evidence): a reachable state on which `draw` renders a
cell set that differs from the alive cells of the parity-selected current
buffer.  From a fresh state, click at (0,0) and let one tick step: the
generation counter becomes 1, so the current buffer is `board_2`, in
which cell (0,0) is dead (its lone live neighbor count is 0) — yet
`draw`, which always iterates `board_1`, still renders (0,0). -/
theorem C2_draw_reads_stale_buffer :
    ∃ s2, ((GameState.new 0).handle_mouse 0 0).tick 1000000000 = some s2
      ∧ s2.cycle = 1
      ∧ (0, 0) ∈ s2.drawnCells
      ∧ s2.currentBoard.get_cell 0 0 = some 0 := by
  have hclick : (GameState.new 0).handle_mouse 0 0 = clickedState := by
    rw [handle_mouse_even (GameState.new 0) rfl 0 0, u32_of_f32_zero]
    rfl
  have hlen1 : clickedState.board_1.cells.length = 10000 := by
    show ((GameState.new 0).board_1.set 0 0 1).cells.length = 10000
    rw [set_length]
    show (Board.new GRID_WIDTH GRID_HEIGHT).cells.length = 10000
    rw [new_length GRID_WIDTH GRID_HEIGHT (by decide)]
    decide
  have hlen2 : clickedState.board_2.cells.length = 10000 := by
    show (Board.new GRID_WIDTH GRID_HEIGHT).cells.length = 10000
    rw [new_length GRID_WIDTH GRID_HEIGHT (by decide)]
    decide
  obtain ⟨s2, r, htick, hu, hcy, hb1, hb2, hcb⟩ :=
    tick_even_parts clickedState 1000000000 (by decide) rfl (by rw [hlen1, hlen2])
  rw [hclick]
  refine ⟨s2, htick, by rw [hcy]; decide, ?_, ?_⟩
  · unfold GameState.drawnCells
    rw [hb1]
    apply List.mem_map.mpr
    refine ⟨0, List.mem_filter.mpr ⟨List.mem_range.mpr ?_, ?_⟩, ?_⟩
    · rw [hlen1]
      decide
    · show (clickedState.board_1.cells.getD 0 0 == 1) = true
      decide
    · show get_coordinates (i32_of_usize 0) = (0, 0)
      decide
  · rw [hcb]
    exact get_cell_zero_of_update clickedState.board_1 clickedState.board_2 r hu
      (by rw [hlen1]; decide) (by decide) (by decide) (by decide)

/-- C4 (counterexample to the claim as stated): the standard glider seeded
on a 10x10 grid dies out entirely within one step (neighbor counting
decodes flat indices with the global `GRID_WIDTH` = 100, not the grid's
width 10), so 4 steps yield the all-dead grid, not the pattern translated
by (1,1). -/
theorem C4_counterexample :
    iterateStep 4 glider10 = some allDead10 ∧ allDead10 ≠ shifted10 := by
  decide


def mooreOfS (w h : Nat) (S : List (Nat × Nat)) (x y : Int) : Nat :=
  (neighbor_coordinates.map (fun o =>
    if 0 ≤ x + o.1 ∧ 0 ≤ y + o.2 then
      (if (x + o.1).toNat < w ∧ (y + o.2).toNat < h then
        (if ((x + o.1).toNat, (y + o.2).toNat) ∈ S then 1 else 0)
      else 0)
    else 0)).sum

lemma boardOfCells_length (w h : Nat) (S : List (Nat × Nat)) :
    (boardOfCells w h S).cells.length = w * h := by
  simp [boardOfCells]

lemma boardOfCells_binary (w h : Nat) (S : List (Nat × Nat)) :
    ∀ c ∈ (boardOfCells w h S).cells, c = 0 ∨ c = 1 := by
  intro c hc
  simp only [boardOfCells, List.mem_map] at hc
  obtain ⟨i, _, rfl⟩ := hc
  split <;> simp

lemma getD_boardOfCells (w h : Nat) (S : List (Nat × Nat)) (i : Nat) (hi : i < w * h) :
    (boardOfCells w h S).cells.getD i 0 = if (i % w, i / w) ∈ S then 1 else 0 := by
  rw [List.getD_eq_getElem _ _ (by simpa [boardOfCells] using hi)]
  simp [boardOfCells]

lemma idx_decode (w x y : Nat) (hw : 0 < w) (hx : x < w) :
    (y * w + x) % w = x ∧ (y * w + x) / w = y := by
  constructor
  · rw [Nat.mul_comm y w, Nat.mul_add_mod]
    exact Nat.mod_eq_of_lt hx
  · rw [Nat.mul_comm y w, Nat.mul_add_div hw, Nat.div_eq_of_lt hx]
    omega

lemma get_cell_boardOfCells (w h : Nat) (S : List (Nat × Nat)) (x y : Nat)
    (hx : x < w) (hy : y < h) (hsz : w * h < U32_MOD) :
    (boardOfCells w h S).get_cell x y = some (if (x, y) ∈ S then 1 else 0) := by
  have hw : 0 < w := by omega
  unfold Board.get_cell
  rw [if_pos (⟨hx, hy⟩ : x < (boardOfCells w h S).width ∧ y < (boardOfCells w h S).height)]
  rw [show ((y * (boardOfCells w h S).width + x) % U32_MOD) = y * w + x from
    idx_mod w h x y hx hy hsz]
  rw [getD_boardOfCells w h S _ (idx_lt w h x y hx hy)]
  rw [(idx_decode w x y hw hx).1, (idx_decode w x y hw hx).2]

lemma specMooreCount_boardOfCells (w h : Nat) (S : List (Nat × Nat)) (x y : Int)
    (hsz : w * h < U32_MOD) :
    specMooreCount (boardOfCells w h S) x y = mooreOfS w h S x y := by
  unfold specMooreCount mooreOfS
  congr 1
  apply List.map_congr_left
  intro o _
  by_cases hb : 0 ≤ x + o.1 ∧ 0 ≤ y + o.2
  · rw [if_pos hb, if_pos hb]
    by_cases hin : (x + o.1).toNat < w ∧ (y + o.2).toNat < h
    · rw [if_pos hin, get_cell_boardOfCells w h S _ _ hin.1 hin.2 hsz, Option.getD_some]
    · rw [if_neg hin]
      unfold Board.get_cell
      rw [if_neg (show ¬((x + o.1).toNat < (boardOfCells w h S).width
            ∧ (y + o.2).toNat < (boardOfCells w h S).height) from hin)]
      rfl
  · rw [if_neg hb, if_neg hb]

lemma next_cell_boardOfCells (h : Nat) (S : List (Nat × Nat)) (i : Nat)
    (hi : i < 100 * h) (hsz : 100 * h < 2 ^ 31) :
    (boardOfCells 100 h S).next_cell i
      = specLifeRule (if (i % 100, i / 100) ∈ S then 1 else 0)
          (mooreOfS 100 h S ((i % 100 : Nat) : Int) ((i / 100 : Nat) : Int)) := by
  have hbin := boardOfCells_binary 100 h S
  have hh32 : (boardOfCells 100 h S).height ≤ 4294967295 := by
    show h ≤ 4294967295
    omega
  rw [next_cell_eq_rule _ i (getD_binary _ hbin i)]
  rw [count_eq_spec (boardOfCells 100 h S) rfl hh32 hbin i (by omega)]
  rw [getD_boardOfCells 100 h S i hi]
  rw [specMooreCount_boardOfCells 100 h S _ _ (by unfold U32_MOD; omega)]

lemma update_boardOfCells (h : Nat) (S T : List (Nat × Nat))
    (hsz : 100 * h < 2 ^ 31)
    (hstep : ∀ i ∈ List.range (100 * h),
      specLifeRule (if (i % 100, i / 100) ∈ S then 1 else 0)
          (mooreOfS 100 h S ((i % 100 : Nat) : Int) ((i / 100 : Nat) : Int))
        = (if (i % 100, i / 100) ∈ T then 1 else 0)) :
    (boardOfCells 100 h S).update (Board.new 100 h) = some (boardOfCells 100 h T) := by
  have hlS : (boardOfCells 100 h S).cells.length = 100 * h := boardOfCells_length 100 h S
  have hlN : (Board.new 100 h).cells.length = 100 * h :=
    new_length 100 h (by unfold U32_MOD; omega)
  have hdrop : (Board.new 100 h).cells.drop (boardOfCells 100 h S).cells.length = [] :=
    List.drop_eq_nil_of_le (by omega)
  rw [update_eq _ _ (by omega)]
  have hcells : (List.range (boardOfCells 100 h S).cells.length).map
        (boardOfCells 100 h S).next_cell
        ++ (Board.new 100 h).cells.drop (boardOfCells 100 h S).cells.length
      = (boardOfCells 100 h T).cells := by
    rw [hdrop, List.append_nil, hlS]
    apply List.ext_getElem
    · simp [boardOfCells]
    · intro i h1 h2
      rw [List.getElem_map, List.getElem_range]
      rw [next_cell_boardOfCells h S i (by simpa using h1) hsz]
      rw [hstep i (List.mem_range.mpr (by simpa using h1))]
      simp [boardOfCells]
  exact congrArg (fun c => some (Board.mk c 100 h)) hcells

lemma glider_step_1 : glider100x4.update (Board.new 100 4) = some gliderGen1 :=
  update_boardOfCells 4 [(1, 0), (2, 1), (0, 2), (1, 2), (2, 2)]
    [(0, 1), (2, 1), (1, 2), (2, 2), (1, 3)] (by decide) (by decide)

lemma glider_step_2 : gliderGen1.update (Board.new 100 4) = some gliderGen2 :=
  update_boardOfCells 4 [(0, 1), (2, 1), (1, 2), (2, 2), (1, 3)]
    [(2, 1), (0, 2), (2, 2), (1, 3), (2, 3)] (by decide) (by decide)

lemma glider_step_3 : gliderGen2.update (Board.new 100 4) = some gliderGen3 :=
  update_boardOfCells 4 [(2, 1), (0, 2), (2, 2), (1, 3), (2, 3)]
    [(1, 1), (2, 2), (3, 2), (1, 3), (2, 3)] (by decide) (by decide)

lemma glider_step_4 : gliderGen3.update (Board.new 100 4) = some shifted100x4 :=
  update_boardOfCells 4 [(1, 1), (2, 2), (3, 2), (1, 3), (2, 3)]
    [(2, 1), (3, 2), (1, 3), (2, 3), (3, 3)] (by decide) (by decide)

/-- C4 (amended): on a grid of width `GRID_WIDTH` (here 100x4), seeding
the standard 5-cell glider and applying `update` 4 times yields the same
pattern translated by (1,1), with all other cells dead. -/
theorem C4_glider_period :
    iterateStep 4 glider100x4 = some shifted100x4 := by
  show (glider100x4.update (Board.new glider100x4.width glider100x4.height)).bind
      (iterateStep 3) = some shifted100x4
  rw [show Board.new glider100x4.width glider100x4.height = Board.new 100 4 from rfl,
    glider_step_1, Option.some_bind]
  show (gliderGen1.update (Board.new gliderGen1.width gliderGen1.height)).bind
      (iterateStep 2) = some shifted100x4
  rw [show Board.new gliderGen1.width gliderGen1.height = Board.new 100 4 from rfl,
    glider_step_2, Option.some_bind]
  show (gliderGen2.update (Board.new gliderGen2.width gliderGen2.height)).bind
      (iterateStep 1) = some shifted100x4
  rw [show Board.new gliderGen2.width gliderGen2.height = Board.new 100 4 from rfl,
    glider_step_3, Option.some_bind]
  show (gliderGen3.update (Board.new gliderGen3.width gliderGen3.height)).bind
      (iterateStep 0) = some shifted100x4
  rw [show Board.new gliderGen3.width gliderGen3.height = Board.new 100 4 from rfl,
    glider_step_4, Option.some_bind]
  rfl
